import Mathlib

/-!
Verification of the idea-board client core: the Notes Synchronization Engine
(`useNotes`), the Channel Registry (`realtimeManager.ts`), the Presence Engine
(`usePresence.ts`), and the Drag Interaction Controller (`useDraggable`),
together with the server-side `sync_votes_count` trigger of the SQL schema.

The stateful hooks are embedded as pure state-transition functions: React
state updates become explicit record updates, asynchronous persistence calls
become parameters (`storeOk` selects the success or failure continuation, the
server-assigned id and timestamp arrive as arguments), and the store writes
and channel broadcasts an operation would issue are returned as explicit
traces.  Pixel coordinates are embedded as integers.
-/

namespace IdeaBoard

/-- A row of the `sticky_notes` table (schema.sql) as held in the Notes
Engine's local collection. `voted_by` is the JSONB array of user ids. -/
structure StickyNote where
  id : String
  content : String
  position_x : Int
  position_y : Int
  color : String
  category : String
  votes : Nat
  voted_by : List String
  created_by : String
  created_by_name : String
  created_at : Nat
  updated_at : Nat
  deriving DecidableEq, Repr

/-- The tagged union broadcast on the `notes-sync` channel (`BroadcastAction`
in lib/types): `note_added`/`note_updated` carry the full row, `note_deleted`
the id, `note_voted` the id with the canonical `votes`/`voted_by` pair. -/
inductive BroadcastAction where
  | note_added (note : StickyNote)
  | note_updated (note : StickyNote)
  | note_deleted (id : String)
  | note_voted (id : String) (votes : Nat) (voted_by : List String)
  deriving DecidableEq, Repr

/-- Local state of the Notes Engine (`useNotes`): the notes collection, the
loading flag and the last-error field. -/
structure EngineState where
  notes : List StickyNote
  loading : Bool
  error : Option String
  deriving DecidableEq, Repr

/-- The remote-event handler of `useNotes` (the `channel.on('broadcast', ...)`
switch): `note_added` inserts at the front unless the id is already present,
`note_updated` replaces by id, `note_deleted` filters by id, `note_voted`
patches the `votes`/`voted_by` fields by id. -/
def applyBroadcast (action : BroadcastAction) (prev : List StickyNote) :
    List StickyNote :=
  match action with
  | .note_added note =>
      if prev.any (fun n => n.id == note.id) then prev else note :: prev
  | .note_updated note =>
      prev.map (fun n => if n.id == note.id then note else n)
  | .note_deleted id =>
      prev.filter (fun n => n.id != id)
  | .note_voted id votes voted_by =>
      prev.map (fun n =>
        if n.id == id then { n with votes := votes, voted_by := voted_by } else n)

/-- The server-side `sync_votes_count` trigger (part of the SQL schema): on
every insert or update of `voted_by` it recomputes
`votes := jsonb_array_length(voted_by)` before the row is written, and the
written row is what `.select().single()` returns to the client. -/
def dbApplyVotedBy (row : StickyNote) (newVotedBy : List String) : StickyNote :=
  { row with voted_by := newVotedBy, votes := newVotedBy.length }

/-- A write issued to the record store, recorded as a trace entry so that
"no persistence call happened" is expressible. -/
inductive StoreOp where
  | insertNote (content category color : String) (px py : Int)
      (created_by created_by_name : String)
  | updateVotedBy (id : String) (newVotedBy : List String)
  deriving DecidableEq, Repr

/-- The toggle computed by `voteNote`: when the acting user's id is already
in `voted_by` (`hasVoted`), remove it by filtering; else append it. -/
def toggleVotedBy (votedBy : List String) (userId : String) : List String :=
  if votedBy.contains userId then votedBy.filter (fun uid => uid != userId)
  else votedBy ++ [userId]

/-- Embedding of `voteNote(id)` of `useNotes`: find the note locally (absent id returns
`false` at once, issuing nothing); toggle the acting user's membership in
`voted_by`; send the new set to the store, whose trigger recomputes `votes`
and returns the canonical row (`dbApplyVotedBy`); replace the note locally by
that row and broadcast `note_voted` with the canonical fields.  The store row
is taken to coincide with the locally held row (no interleaved writers), and
`storeOk` selects the success or the caught-error continuation; the broadcast
is sent only when the channel ref is live (`channelReady`). -/
def voteNote (userId : String) (id : String) (storeOk : Bool)
    (channelReady : Bool) (s : EngineState) :
    Bool × EngineState × List BroadcastAction × List StoreOp :=
  match s.notes.find? (fun n => n.id == id) with
  | none => (false, s, [], [])
  | some note =>
      let newVotedBy := toggleVotedBy note.voted_by userId
      if storeOk then
        let updatedNote := dbApplyVotedBy note newVotedBy
        (true,
         { s with notes := s.notes.map (fun n => if n.id == id then updatedNote else n) },
         if channelReady then [.note_voted id updatedNote.votes updatedNote.voted_by] else [],
         [.updateVotedBy id newVotedBy])
      else
        (false, { s with error := some "Failed to vote on note" },
         [], [.updateVotedBy id newVotedBy])

/-- The row an insert's `.select().single()` returns: server-assigned id and
timestamps, the submitted fields, and the trigger-derived
`votes = jsonb_array_length('[]') = 0`. -/
def serverRow (userId userName content category color : String) (px py : Int)
    (newId : String) (now : Nat) : StickyNote :=
  { id := newId, content := content, position_x := px, position_y := py,
    color := color, category := category, votes := 0, voted_by := [],
    created_by := userId, created_by_name := userName,
    created_at := now, updated_at := now }

/-- Embedding of `addNote` of `useNotes`: fail fast when there is no active session or the
user info is missing (error recorded, nothing persisted, nothing broadcast);
otherwise insert the row (the server assigns `newId`/`now`, and the trigger
sets `votes := 0` from the empty `voted_by`), prepend the returned row to the
local collection, and broadcast `note_added` when the channel is live.  The
caller-side position default (`Math.random()*400+200`, `*300+100`) is
resolved by the caller into `px`/`py`. -/
def addNote (hasSession : Bool) (userId userName : String)
    (content category color : String) (px py : Int)
    (newId : String) (now : Nat) (storeOk : Bool) (channelReady : Bool)
    (s : EngineState) :
    Option StickyNote × EngineState × List BroadcastAction × List StoreOp :=
  if !hasSession then
    (none, { s with error := some "No active session. Please sign in again." }, [], [])
  else if userId == "" || userName == "" then
    (none, { s with error := some "User information is missing. Please refresh the page." },
     [], [])
  else if storeOk then
    let row := serverRow userId userName content category color px py newId now
    (some row, { s with notes := row :: s.notes },
     if channelReady then [.note_added row] else [],
     [.insertNote content category color px py userId userName])
  else
    (none, { s with error := some "Failed to add note" },
     [], [.insertNote content category color px py userId userName])

/-- The ordering the load query requests: `created_at` descending. -/
def createdAtDesc (a b : StickyNote) : Bool :=
  b.created_at ≤ a.created_at

/-- Embedding of `fetchNotes` of `useNotes`: `select * order by created_at desc limit 100`
against the store's rows. -/
def fetchNotes (store : List StickyNote) : List StickyNote :=
  (store.mergeSort createdAtDesc).take 100

/-- Successful `load()`: the fetched list replaces the collection wholesale,
the error is cleared and loading ends. -/
def loadSuccess (store : List StickyNote) (s : EngineState) : EngineState :=
  { s with notes := fetchNotes store, error := none, loading := false }

/-- Failed `load()`: the error is recorded, the collection is untouched. -/
def loadFailure (msg : String) (s : EngineState) : EngineState :=
  { s with error := some msg, loading := false }

/-- Module-level state of one channel in `realtimeManager.ts`: whether the
handle exists (`channelAlive`, the channel variable being non-null), a
generation counter distinguishing successively created handles, the reference
count, the subscribed flag, and counters for the side effects issued
(`subscribe()`, `unsubscribe()`, `untrack()`). -/
structure ChannelReg where
  channelAlive : Bool
  channelGen : Nat
  subscribers : Int
  subscribed : Bool
  subscribeCalls : Nat
  unsubscribeCalls : Nat
  untrackCalls : Nat
  deriving DecidableEq, Repr

/-- Process start: no handle, zero subscribers, nothing issued. -/
def ChannelReg.init : ChannelReg :=
  { channelAlive := false, channelGen := 0, subscribers := 0, subscribed := false,
    subscribeCalls := 0, unsubscribeCalls := 0, untrackCalls := 0 }

/-- Embedding of `getNotesChannel`/`getPresenceChannel`: reuse the handle when present,
else create a fresh one marked not yet subscribed. -/
def getChannel (r : ChannelReg) : ChannelReg :=
  if r.channelAlive then r
  else { r with channelAlive := true, channelGen := r.channelGen + 1,
                subscribed := false }

/-- One consumer mounting (the subscription effect of `useNotes` or
`usePresence`, sequentialized on the event loop): acquire the handle, issue
the subscription handshake only when the subscribed flag is not yet set (the
`SUBSCRIBED` confirmation then marks it), and increment the reference count
(`subscribeToNotesChannel`/`subscribeToPresenceChannel`). -/
def mountConsumer (r : ChannelReg) : ChannelReg :=
  let r1 := getChannel r
  let r2 := if r1.subscribed then r1
            else { r1 with subscribeCalls := r1.subscribeCalls + 1, subscribed := true }
  { r2 with subscribers := r2.subscribers + 1 }

/-- The cleanup closure returned by `subscribeToNotesChannel`: decrement the
count; when it reaches zero with a live handle, unsubscribe and discard it. -/
def releaseNotesConsumer (r : ChannelReg) : ChannelReg :=
  let r1 := { r with subscribers := r.subscribers - 1 }
  if r1.subscribers = 0 ∧ r1.channelAlive then
    { r1 with unsubscribeCalls := r1.unsubscribeCalls + 1,
              channelAlive := false, subscribed := false }
  else r1

/-- The cleanup closure returned by `subscribeToPresenceChannel`: same as the
notes one, but untracks self before unsubscribing. -/
def releasePresenceConsumer (r : ChannelReg) : ChannelReg :=
  let r1 := { r with subscribers := r.subscribers - 1 }
  if r1.subscribers = 0 ∧ r1.channelAlive then
    { r1 with untrackCalls := r1.untrackCalls + 1,
              unsubscribeCalls := r1.unsubscribeCalls + 1,
              channelAlive := false, subscribed := false }
  else r1

/-- A pixel position, as integers. -/
structure Pos where
  x : Int
  y : Int
  deriving DecidableEq, Repr

/-- State of `useDraggable` for one note: the rendered `position` state, the
`isDragging` state, the `justDragged` ref (true exactly during the 500ms
window after drop, cleared by the timeout below), and the three position
refs. -/
structure DragState where
  position : Pos
  isDragging : Bool
  justDragged : Bool
  dragStartPos : Pos
  elementStartPos : Pos
  currentPosition : Pos
  deriving DecidableEq, Repr

/-- Embedding of `handleMouseDown`: primary button on the drag-handle region starts a
drag, recording the pointer start and the element's position snapshot. -/
def handleMouseDown (button : Nat) (onHandle : Bool) (pointer : Pos)
    (s : DragState) : DragState :=
  if button ≠ 0 then s
  else if !onHandle then s
  else { s with dragStartPos := pointer, elementStartPos := s.position,
                isDragging := true }

/-- Embedding of `handleMouseMove` (listener active only while dragging): rendered
position becomes snapshot plus pointer delta. -/
def handleMouseMove (pointer : Pos) (s : DragState) : DragState :=
  if !s.isDragging then s
  else
    let newPosition : Pos :=
      { x := s.elementStartPos.x + (pointer.x - s.dragStartPos.x),
        y := s.elementStartPos.y + (pointer.y - s.dragStartPos.y) }
    { s with currentPosition := newPosition, position := newPosition }

/-- Embedding of `handleMouseUp`: leave Dragging, set the `justDragged` flag (scheduling
its clearance 500ms later), and hand the final position to `onDragEnd` —
returned as the second component. -/
def handleMouseUp (s : DragState) : DragState × Pos :=
  ({ s with isDragging := false, justDragged := true }, s.currentPosition)

/-- The 500ms `setTimeout` callback: clear the `justDragged` flag. -/
def justDraggedTimeout (s : DragState) : DragState :=
  { s with justDragged := false }

/-- The `initialPosition` effect of `useDraggable`, run when an
externally-supplied position arrives: return unchanged while dragging or just
dragged; otherwise adopt the new position (a no-op when it already equals the
rendered one). -/
def externalUpdate (p : Pos) (s : DragState) : DragState :=
  if s.isDragging || s.justDragged then s
  else if s.position = p then s
  else { s with position := p, currentPosition := p }

/-- One tracked presence identity (`PresenceUser` in lib/types). -/
structure PresenceUser where
  user_id : String
  user_name : String
  avatar_url : Option String
  online_at : Nat
  deriving DecidableEq, Repr

/-- Embedding of JavaScript `Map.set` on an association list kept in first-insertion
order: overwrite the value in place when the key exists, else append. -/
def mapSet (m : List (String × PresenceUser)) (k : String) (v : PresenceUser) :
    List (String × PresenceUser) :=
  if m.any (fun q => q.1 == k) then
    m.map (fun q => if q.1 == k then (k, v) else q)
  else m ++ [(k, v)]

/-- The presence `sync` handler of `usePresence`: iterate the snapshot's keys
and each key's presence list in order, skipping entries with the local user's
id, `Map.set`-ing the rest keyed by `user_id`, and return the map's values. -/
def presenceSync (localId : String)
    (presenceState : List (String × List PresenceUser)) : List PresenceUser :=
  (((presenceState.map (fun kv => kv.2)).flatten).foldl
    (fun m presence =>
      if presence.user_id != localId then mapSet m presence.user_id presence else m)
    []).map (fun q => q.2)

/-- The derived-counter invariant on one note: the cached `votes` equals the
length of `voted_by`, which carries no duplicate voter ids. -/
def noteInv (n : StickyNote) : Prop :=
  n.votes = n.voted_by.length ∧ n.voted_by.Nodup

instance (n : StickyNote) : Decidable (noteInv n) :=
  inferInstanceAs (Decidable (_ ∧ _))

/-- The note of the spec's walk-through scenario, freshly inserted. -/
def sampleNote : StickyNote :=
  { id := "n1", content := "Build a bot", position_x := 250, position_y := 140,
    color := "#d1fae5", category := "automation", votes := 0, voted_by := [],
    created_by := "u1", created_by_name := "Ann", created_at := 1, updated_at := 1 }

/-- An engine state holding just the scenario note. -/
def sampleState : EngineState :=
  { notes := [sampleNote], loading := false, error := none }

/-- A store row used to populate a large concrete store. -/
def mkStoreNote (i : Nat) : StickyNote :=
  { id := toString i, content := "idea", position_x := 0, position_y := 0,
    color := "#fef3c7", category := "other", votes := 0, voted_by := [],
    created_by := "u1", created_by_name := "Ann", created_at := i, updated_at := i }

/-- A store holding 150 rows with distinct creation times. -/
def store150 : List StickyNote :=
  (List.range 150).map mkStoreNote

/-- An idle drag controller at the origin. -/
def dragIdle : DragState :=
  { position := { x := 0, y := 0 }, isDragging := false, justDragged := false,
    dragStartPos := { x := 0, y := 0 }, elementStartPos := { x := 0, y := 0 },
    currentPosition := { x := 0, y := 0 } }

/-- Two presence entries for the same user id with distinct heartbeats. -/
def presenceLate : PresenceUser :=
  { user_id := "u2", user_name := "Ben", avatar_url := none, online_at := 10 }

/-- The staler of the two conflicting presence entries. -/
def presenceStale : PresenceUser :=
  { user_id := "u2", user_name := "Ben", avatar_url := none, online_at := 5 }

/-- C3: acquiring the channel from 3 consumers and releasing from all 3
issues exactly one subscription handshake and exactly one unsubscribe over
the lifetime; releasing from only 2 of the 3 leaves the channel alive with no
unsubscribe; after the count reaches zero a subsequent acquire creates a
fresh not-yet-subscribed handle.  Shown for the notes channel and for the
presence channel (whose teardown also untracks exactly once). -/
theorem channel_refcount_lifecycle :
    (mountConsumer (mountConsumer (mountConsumer ChannelReg.init))).subscribeCalls = 1
    ∧ (mountConsumer (mountConsumer (mountConsumer ChannelReg.init))).subscribers = 3
    ∧ (releaseNotesConsumer (releaseNotesConsumer
        (mountConsumer (mountConsumer (mountConsumer ChannelReg.init))))).unsubscribeCalls = 0
    ∧ (releaseNotesConsumer (releaseNotesConsumer
        (mountConsumer (mountConsumer (mountConsumer ChannelReg.init))))).channelAlive = true
    ∧ (releaseNotesConsumer (releaseNotesConsumer (releaseNotesConsumer
        (mountConsumer (mountConsumer (mountConsumer ChannelReg.init)))))).subscribeCalls = 1
    ∧ (releaseNotesConsumer (releaseNotesConsumer (releaseNotesConsumer
        (mountConsumer (mountConsumer (mountConsumer ChannelReg.init)))))).unsubscribeCalls = 1
    ∧ (releaseNotesConsumer (releaseNotesConsumer (releaseNotesConsumer
        (mountConsumer (mountConsumer (mountConsumer ChannelReg.init)))))).channelAlive = false
    ∧ (getChannel (releaseNotesConsumer (releaseNotesConsumer (releaseNotesConsumer
        (mountConsumer (mountConsumer (mountConsumer ChannelReg.init))))))).channelAlive = true
    ∧ (getChannel (releaseNotesConsumer (releaseNotesConsumer (releaseNotesConsumer
        (mountConsumer (mountConsumer (mountConsumer ChannelReg.init))))))).subscribed = false
    ∧ (getChannel (releaseNotesConsumer (releaseNotesConsumer (releaseNotesConsumer
        (mountConsumer (mountConsumer (mountConsumer ChannelReg.init))))))).channelGen
      = (releaseNotesConsumer (releaseNotesConsumer (releaseNotesConsumer
        (mountConsumer (mountConsumer (mountConsumer ChannelReg.init)))))).channelGen + 1
    ∧ (releasePresenceConsumer (releasePresenceConsumer
        (mountConsumer (mountConsumer (mountConsumer ChannelReg.init))))).unsubscribeCalls = 0
    ∧ (releasePresenceConsumer (releasePresenceConsumer
        (mountConsumer (mountConsumer (mountConsumer ChannelReg.init))))).channelAlive = true
    ∧ (releasePresenceConsumer (releasePresenceConsumer (releasePresenceConsumer
        (mountConsumer (mountConsumer (mountConsumer ChannelReg.init)))))).subscribeCalls = 1
    ∧ (releasePresenceConsumer (releasePresenceConsumer (releasePresenceConsumer
        (mountConsumer (mountConsumer (mountConsumer ChannelReg.init)))))).unsubscribeCalls = 1
    ∧ (releasePresenceConsumer (releasePresenceConsumer (releasePresenceConsumer
        (mountConsumer (mountConsumer (mountConsumer ChannelReg.init)))))).untrackCalls = 1
    := by decide

/-- C4: the `note_added` duplicate-insert guard is idempotent — applying the
same event twice equals applying it once, and when the target id occurs at
most once beforehand, the resulting collection holds exactly one entry with
that note's id. -/
theorem duplicate_insert_guard (note : StickyNote) (prev : List StickyNote)
    (h : (prev.filter (fun n => n.id == note.id)).length ≤ 1) :
    applyBroadcast (.note_added note) (applyBroadcast (.note_added note) prev)
      = applyBroadcast (.note_added note) prev
    ∧ ((applyBroadcast (.note_added note) prev).filter
        (fun n => n.id == note.id)).length = 1 := by
  by_cases hany : prev.any (fun n => n.id == note.id) = true
  · have h1 : applyBroadcast (.note_added note) prev = prev := by
      simp only [applyBroadcast]
      rw [if_pos hany]
    refine ⟨by rw [h1, h1], ?_⟩
    rw [h1]
    obtain ⟨n, hn, hid⟩ := List.any_eq_true.mp hany
    have hmem : n ∈ prev.filter (fun n => n.id == note.id) :=
      List.mem_filter.mpr ⟨hn, hid⟩
    have hpos : 0 < (prev.filter (fun n => n.id == note.id)).length :=
      List.length_pos.mpr (List.ne_nil_of_mem hmem)
    omega
  · have h1 : applyBroadcast (.note_added note) prev = note :: prev := by
      simp only [applyBroadcast]
      rw [if_neg hany]
    have h2 : applyBroadcast (.note_added note) (note :: prev) = note :: prev := by
      simp only [applyBroadcast]
      rw [if_pos]
      exact List.any_eq_true.mpr ⟨note, List.mem_cons_self note prev, beq_self_eq_true note.id⟩
    have hall : ∀ n ∈ prev, ¬ (n.id == note.id) = true := fun n hn hc =>
      hany (List.any_eq_true.mpr ⟨n, hn, hc⟩)
    refine ⟨by rw [h1, h2], ?_⟩
    rw [h1, List.filter_cons_of_pos (p := fun n : StickyNote => n.id == note.id)
          (beq_self_eq_true note.id),
        List.filter_eq_nil_iff.mpr hall]
    rfl

/-- C4 witness: inserting the scenario note into the empty collection twice
keeps a single entry for its id, and the second application changes
nothing. -/
theorem duplicate_insert_guard_witness :
    (([] : List StickyNote).filter (fun n => n.id == sampleNote.id)).length ≤ 1
    ∧ (applyBroadcast (.note_added sampleNote)
          (applyBroadcast (.note_added sampleNote) [])
        = applyBroadcast (.note_added sampleNote) []
      ∧ ((applyBroadcast (.note_added sampleNote) []).filter
          (fun n => n.id == sampleNote.id)).length = 1) :=
  ⟨by decide, duplicate_insert_guard sampleNote [] (by decide)⟩

/-- C5: a remote `note_updated`, `note_deleted` or `note_voted` event whose
target id is absent from the local collection leaves the collection exactly
unchanged. -/
theorem unknown_id_remote_noop (id : String) (note : StickyNote) (votes : Nat)
    (voted_by : List String) (prev : List StickyNote)
    (hid : note.id = id) (h : ∀ n ∈ prev, n.id ≠ id) :
    applyBroadcast (.note_updated note) prev = prev
    ∧ applyBroadcast (.note_deleted id) prev = prev
    ∧ applyBroadcast (.note_voted id votes voted_by) prev = prev := by
  refine ⟨?_, ?_, ?_⟩
  · have hcong : ∀ n ∈ prev, (if n.id == note.id then note else n) = n := by
      intro n hn
      rw [if_neg]
      simp only [beq_iff_eq, hid]
      exact h n hn
    simp only [applyBroadcast]
    rw [List.map_congr_left hcong, List.map_id']
  · simp only [applyBroadcast]
    rw [List.filter_eq_self.mpr]
    intro n hn
    simp only [bne_iff_ne, ne_eq]
    exact h n hn
  · have hcong : ∀ n ∈ prev,
        (if n.id == id then { n with votes := votes, voted_by := voted_by } else n) = n := by
      intro n hn
      rw [if_neg]
      simp only [beq_iff_eq]
      exact h n hn
    simp only [applyBroadcast]
    rw [List.map_congr_left hcong, List.map_id']

/-- C5 witness: the three remote events aimed at an id no local note carries
leave the scenario collection untouched. -/
theorem unknown_id_remote_noop_witness :
    ({ sampleNote with id := "ghost" }).id = "ghost"
    ∧ (∀ n ∈ [sampleNote], n.id ≠ "ghost")
    ∧ (applyBroadcast (.note_updated { sampleNote with id := "ghost" }) [sampleNote]
        = [sampleNote]
      ∧ applyBroadcast (.note_deleted "ghost") [sampleNote] = [sampleNote]
      ∧ applyBroadcast (.note_voted "ghost" 3 ["u9"]) [sampleNote] = [sampleNote]) :=
  ⟨by decide, by decide,
   unknown_id_remote_noop "ghost" { sampleNote with id := "ghost" } 3 ["u9"]
     [sampleNote] (by decide) (by decide)⟩

/-- C6: while the drag controller is Dragging or inside the JustDragged
window, an externally-supplied position update leaves the state (hence the
rendered position) unchanged; outside those states it is applied.  In
particular the state right after `handleMouseUp` still suppresses updates,
and once the 500ms timeout clears the flag (with no drag in progress) the
update lands. -/
theorem drag_suppression (p : Pos) (s : DragState) :
    (s.isDragging = true ∨ s.justDragged = true → externalUpdate p s = s)
    ∧ (s.isDragging = false → s.justDragged = false →
        (externalUpdate p s).position = p)
    ∧ externalUpdate p (handleMouseUp s).1 = (handleMouseUp s).1
    ∧ (s.isDragging = false →
        (externalUpdate p (justDraggedTimeout s)).position = p) := by
  refine ⟨?_, ?_, ?_, ?_⟩
  · intro h
    unfold externalUpdate
    rcases h with h | h <;> simp [h]
  · intro h1 h2
    unfold externalUpdate
    simp only [h1, h2, Bool.or_self, Bool.false_eq_true, if_false]
    by_cases hp : s.position = p
    · simp [hp]
    · simp [hp]
  · simp [externalUpdate, handleMouseUp]
  · intro h1
    unfold externalUpdate justDraggedTimeout
    simp only [h1, Bool.or_self, Bool.false_eq_true, if_false]
    by_cases hp : s.position = p
    · simp [hp]
    · simp [hp]

/-- C6 witness: a dragging controller at the origin ignores a remote patch to
(9,9), while an idle one adopts it. -/
theorem drag_suppression_witness :
    externalUpdate { x := 9, y := 9 } { dragIdle with isDragging := true }
      = { dragIdle with isDragging := true }
    ∧ (externalUpdate { x := 9, y := 9 } dragIdle).position = { x := 9, y := 9 } :=
  ⟨(drag_suppression { x := 9, y := 9 } { dragIdle with isDragging := true }).1
      (Or.inl (by decide)),
   (drag_suppression { x := 9, y := 9 } dragIdle).2.1 (by decide) (by decide)⟩

/-- C10: `voteNote` on an id absent from the local collection returns `false`
and is completely silent — no store write is issued, no broadcast is sent,
and the engine state (collection and last-error field alike) is returned
unchanged. -/
theorem voteNote_unknown_id_silent (userId id : String) (storeOk channelReady : Bool)
    (s : EngineState) (h : ∀ n ∈ s.notes, n.id ≠ id) :
    voteNote userId id storeOk channelReady s = (false, s, [], []) := by
  have hf : s.notes.find? (fun n => n.id == id) = none := by
    rw [List.find?_eq_none]
    intro n hn
    simp only [beq_iff_eq]
    exact h n hn
  simp [voteNote, hf]

/-- C10 witness: voting on an unknown id in the scenario state is a silent
no-op returning `false`. -/
theorem voteNote_unknown_id_silent_witness :
    (∀ n ∈ sampleState.notes, n.id ≠ "ghost")
    ∧ voteNote "u2" "ghost" true true sampleState = (false, sampleState, [], []) :=
  ⟨by decide, voteNote_unknown_id_silent "u2" "ghost" true true sampleState (by decide)⟩

theorem contains_eq_true_iff (l : List String) (u : String) :
    l.contains u = true ↔ u ∈ l := by
  simp [List.contains]

theorem toggleVotedBy_nodup (vb : List String) (u : String) (h : vb.Nodup) :
    (toggleVotedBy vb u).Nodup := by
  unfold toggleVotedBy
  by_cases hc : vb.contains u = true
  · rw [if_pos hc]
    exact h.filter _
  · rw [if_neg hc, List.nodup_append]
    refine ⟨h, List.nodup_singleton u, ?_⟩
    intro x hx hx'
    rw [List.mem_singleton] at hx'
    subst hx'
    exact hc ((contains_eq_true_iff vb x).mpr hx)

theorem noteInv_dbApplyVotedBy (note : StickyNote) (nvb : List String)
    (h : nvb.Nodup) : noteInv (dbApplyVotedBy note nvb) :=
  ⟨rfl, h⟩

theorem voteNote_notes_preserve_inv (userId id : String) (storeOk ch : Bool)
    (s : EngineState) (hs : ∀ n ∈ s.notes, noteInv n) :
    ∀ n ∈ (voteNote userId id storeOk ch s).2.1.notes, noteInv n := by
  intro n hn
  unfold voteNote at hn
  cases hfind : s.notes.find? (fun n => n.id == id) with
  | none => rw [hfind] at hn; exact hs n hn
  | some note =>
    rw [hfind] at hn
    by_cases hok : storeOk = true
    · simp only [hok, if_true] at hn
      obtain ⟨a, ha, rfl⟩ := List.mem_map.mp hn
      by_cases hid : (a.id == id) = true
      · rw [if_pos hid]
        exact noteInv_dbApplyVotedBy note _
          (toggleVotedBy_nodup _ _ (hs note (List.mem_of_find?_eq_some hfind)).2)
      · rw [if_neg hid]
        exact hs a ha
    · simp only [hok, if_false] at hn
      exact hs n hn

theorem addNote_notes_preserve_inv (hasSession : Bool) (uid uname : String)
    (content category color : String) (px py : Int) (newId : String) (now : Nat)
    (storeOk ch : Bool) (s : EngineState) (hs : ∀ n ∈ s.notes, noteInv n) :
    ∀ n ∈ (addNote hasSession uid uname content category color px py newId now
        storeOk ch s).2.1.notes, noteInv n := by
  intro n hn
  unfold addNote at hn
  cases hasSession with
  | false => simp only [Bool.not_false, if_true] at hn; exact hs n hn
  | true =>
    simp only [Bool.not_true, Bool.false_eq_true, if_false] at hn
    by_cases hu : (uid == "" || uname == "") = true
    · simp only [hu, if_true] at hn
      exact hs n hn
    · simp only [hu, if_false] at hn
      by_cases hok : storeOk = true
      · simp only [hok, if_true] at hn
        rcases List.mem_cons.mp hn with rfl | hn'
        · exact ⟨rfl, List.nodup_nil⟩
        · exact hs n hn'
      · simp only [hok, if_false] at hn
        exact hs n hn

/-- C1: every write path that changes `voted_by` re-derives the counter —
the collection after `addNote` (freshly inserted rows carry `votes = 0` and
empty `voted_by`), after `voteNote` (the trigger-computed row replaces the
note), and after a remote `note_voted` application whose payload is a
canonical store row, consists of notes with `votes` equal to the length of
their duplicate-free `voted_by`; every `note_voted` event `voteNote` emits
carries such a canonical pair; and for such notes `votes` equals the
cardinality of the voter set. -/
theorem vote_counter_invariant
    (userId id uid uname content category color newId : String)
    (px py : Int) (now : Nat) (hasSession storeOk ch : Bool)
    (s : EngineState) (hs : ∀ n ∈ s.notes, noteInv n)
    (tid : String) (v : Nat) (vb : List String)
    (hv : v = vb.length) (hnd : vb.Nodup) :
    (∀ n ∈ (addNote hasSession uid uname content category color px py newId now
        storeOk ch s).2.1.notes, noteInv n)
    ∧ (∀ n ∈ (voteNote userId id storeOk ch s).2.1.notes, noteInv n)
    ∧ (∀ n ∈ applyBroadcast (.note_voted tid v vb) s.notes, noteInv n)
    ∧ (∀ ev ∈ (voteNote userId id storeOk ch s).2.2.1, ∀ tid' v' vb',
        ev = .note_voted tid' v' vb' → v' = vb'.length ∧ vb'.Nodup)
    ∧ (∀ n, noteInv n → n.votes = n.voted_by.toFinset.card) := by
  refine ⟨addNote_notes_preserve_inv _ _ _ _ _ _ _ _ _ _ _ _ s hs,
          voteNote_notes_preserve_inv _ _ _ _ s hs, ?_, ?_, ?_⟩
  · intro n hn
    simp only [applyBroadcast] at hn
    obtain ⟨a, ha, rfl⟩ := List.mem_map.mp hn
    by_cases hid : (a.id == tid) = true
    · rw [if_pos hid]
      exact ⟨hv, hnd⟩
    · rw [if_neg hid]
      exact hs a ha
  · intro ev hev tid' v' vb' hev'
    unfold voteNote at hev
    cases hfind : s.notes.find? (fun n => n.id == id) with
    | none => rw [hfind] at hev; cases hev
    | some note =>
      rw [hfind] at hev
      have hnote : (toggleVotedBy note.voted_by userId).Nodup :=
        toggleVotedBy_nodup _ _ (hs note (List.mem_of_find?_eq_some hfind)).2
      by_cases hok : storeOk = true
      · simp only [hok, if_true] at hev
        by_cases hch : ch = true
        · simp only [hch, if_true] at hev
          rw [List.mem_singleton] at hev
          subst hev
          cases hev'
          exact ⟨rfl, hnote⟩
        · simp only [hch, if_false] at hev
          cases hev
      · simp only [hok, if_false] at hev
        cases hev
  · intro n hn
    rw [hn.1, ← List.toFinset_card_of_nodup hn.2]

/-- C1 witness: the scenario state (one fresh note), a vote by `u2`, and the
canonical pair `(1, [u2])` all satisfy the derived-counter invariant. -/
theorem vote_counter_invariant_witness :
    (∀ n ∈ sampleState.notes, noteInv n)
    ∧ (1 : Nat) = (["u2"] : List String).length
    ∧ (["u2"] : List String).Nodup
    ∧ ((∀ n ∈ (addNote true "u1" "Ann" "Build a bot" "automation" "#d1fae5" 250 140
          "n2" 2 true true sampleState).2.1.notes, noteInv n)
      ∧ (∀ n ∈ (voteNote "u2" "n1" true true sampleState).2.1.notes, noteInv n)
      ∧ (∀ n ∈ applyBroadcast (.note_voted "n1" 1 ["u2"]) sampleState.notes, noteInv n)
      ∧ (∀ ev ∈ (voteNote "u2" "n1" true true sampleState).2.2.1, ∀ tid' v' vb',
          ev = .note_voted tid' v' vb' → v' = vb'.length ∧ vb'.Nodup)
      ∧ (∀ n, noteInv n → n.votes = n.voted_by.toFinset.card)) :=
  ⟨by decide, by decide, by decide,
   vote_counter_invariant "u2" "n1" "u1" "Ann" "Build a bot" "automation" "#d1fae5"
     "n2" 250 140 2 true true true sampleState (by decide) "n1" 1 ["u2"]
     (by decide) (by decide)⟩

theorem voteNote_found (userId id : String) (ch : Bool) (s : EngineState)
    (note : StickyNote)
    (hfind : s.notes.find? (fun n => n.id == id) = some note) :
    voteNote userId id true ch s =
      (true,
       { s with notes := s.notes.map (fun n =>
           if n.id == id then
             dbApplyVotedBy note (toggleVotedBy note.voted_by userId)
           else n) },
       if ch then
         [.note_voted id (dbApplyVotedBy note (toggleVotedBy note.voted_by userId)).votes
            (dbApplyVotedBy note (toggleVotedBy note.voted_by userId)).voted_by]
       else [],
       [.updateVotedBy id (toggleVotedBy note.voted_by userId)]) := by
  unfold voteNote
  rw [hfind]
  rfl

theorem find?_map_replace (l : List StickyNote) (id : String) (u note : StickyNote)
    (h : l.find? (fun n => n.id == id) = some note) (hu : (u.id == id) = true) :
    (l.map (fun n => if n.id == id then u else n)).find? (fun n => n.id == id)
      = some u := by
  induction l with
  | nil => simp at h
  | cons a l ih =>
    by_cases ha : (a.id == id) = true
    · rw [List.map_cons, if_pos ha]
      exact List.find?_cons_of_pos (p := fun n : StickyNote => n.id == id) _ hu
    · rw [List.find?_cons_of_neg (p := fun n : StickyNote => n.id == id) _ ha] at h
      rw [List.map_cons, if_neg ha,
          List.find?_cons_of_neg (p := fun n : StickyNote => n.id == id) _ ha]
      exact ih h

theorem toggleVotedBy_of_mem (vb : List String) (u : String) (h : u ∈ vb) :
    toggleVotedBy vb u = vb.filter (fun x => x != u) := by
  unfold toggleVotedBy
  rw [if_pos ((contains_eq_true_iff vb u).mpr h)]

theorem toggleVotedBy_of_not_mem (vb : List String) (u : String) (h : u ∉ vb) :
    toggleVotedBy vb u = vb ++ [u] := by
  unfold toggleVotedBy
  rw [if_neg (fun hc => h ((contains_eq_true_iff vb u).mp hc))]

theorem mem_toggleVotedBy_of_mem (vb : List String) (u : String) (h : u ∈ vb) :
    ∀ x, x ∈ toggleVotedBy vb u ↔ (x ∈ vb ∧ x ≠ u) := by
  intro x
  unfold toggleVotedBy
  rw [if_pos ((contains_eq_true_iff vb u).mpr h)]
  simp [List.mem_filter]

theorem mem_toggleVotedBy_of_not_mem (vb : List String) (u : String) (h : u ∉ vb) :
    ∀ x, x ∈ toggleVotedBy vb u ↔ (x ∈ vb ∨ x = u) := by
  intro x
  unfold toggleVotedBy
  rw [if_neg (fun hc => h ((contains_eq_true_iff vb u).mp hc))]
  simp [List.mem_append]

theorem length_filter_ne_add_one (l : List String) (u : String)
    (hnd : l.Nodup) (hm : u ∈ l) :
    (l.filter (fun x => x != u)).length + 1 = l.length := by
  induction l with
  | nil => cases hm
  | cons a l ih =>
    rw [List.nodup_cons] at hnd
    rcases List.mem_cons.mp hm with rfl | hm'
    · rw [List.filter_cons_of_neg (by simp)]
      rw [List.filter_eq_self.mpr, List.length_cons]
      intro x hx
      simp only [bne_iff_ne, ne_eq]
      rintro rfl
      exact hnd.1 hx
    · rw [List.filter_cons_of_pos (by simp [bne_iff_ne]; rintro rfl; exact hnd.1 hm'),
          List.length_cons, List.length_cons]
      have := ih hnd.2 hm'
      omega

theorem filter_ne_of_not_mem (l : List String) (u : String) (h : u ∉ l) :
    l.filter (fun x => x != u) = l := by
  rw [List.filter_eq_self.mpr]
  intro x hx
  simp only [bne_iff_ne, ne_eq]
  rintro rfl
  exact h hx

theorem toggle_toggle_mem (vb : List String) (u : String) :
    ∀ x, x ∈ toggleVotedBy (toggleVotedBy vb u) u ↔ x ∈ vb := by
  intro x
  by_cases hm : u ∈ vb
  · have h1 := mem_toggleVotedBy_of_mem vb u hm
    have hu1 : u ∉ toggleVotedBy vb u := fun hc => ((h1 u).mp hc).2 rfl
    rw [mem_toggleVotedBy_of_not_mem _ u hu1 x, h1 x]
    constructor
    · rintro (⟨hx, -⟩ | rfl)
      · exact hx
      · exact hm
    · intro hx
      by_cases hxu : x = u
      · exact Or.inr hxu
      · exact Or.inl ⟨hx, hxu⟩
  · have hu1 : u ∈ toggleVotedBy vb u :=
      (mem_toggleVotedBy_of_not_mem vb u hm u).mpr (Or.inr rfl)
    rw [mem_toggleVotedBy_of_mem _ u hu1 x,
        mem_toggleVotedBy_of_not_mem vb u hm x]
    constructor
    · rintro ⟨hx | rfl, hxu⟩
      · exact hx
      · exact absurd rfl hxu
    · intro hx
      refine ⟨Or.inl hx, ?_⟩
      rintro rfl
      exact hm hx

theorem toggle_toggle_length (vb : List String) (u : String) (hnd : vb.Nodup) :
    (toggleVotedBy (toggleVotedBy vb u) u).length = vb.length := by
  by_cases hm : u ∈ vb
  · have hu1 : u ∉ toggleVotedBy vb u :=
      fun hc => ((mem_toggleVotedBy_of_mem vb u hm u).mp hc).2 rfl
    rw [toggleVotedBy_of_not_mem _ u hu1, List.length_append,
        List.length_singleton, toggleVotedBy_of_mem vb u hm]
    exact length_filter_ne_add_one vb u hnd hm
  · have hu1 : u ∈ toggleVotedBy vb u :=
      (mem_toggleVotedBy_of_not_mem vb u hm u).mpr (Or.inr rfl)
    rw [toggleVotedBy_of_mem _ u hu1, toggleVotedBy_of_not_mem vb u hm,
        List.filter_append, filter_ne_of_not_mem vb u hm]
    simp

/-- C2: with the note present locally and satisfying the derived-counter
invariant, two successive `voteNote` calls by the same user (no interleaved
operations) return the note's `voted_by` to its original membership and its
`votes` to its original count; the first call adds the user's id when absent
and removes it when present. -/
theorem vote_toggle_involution (userId id : String) (ch : Bool) (s : EngineState)
    (note : StickyNote)
    (hfind : s.notes.find? (fun n => n.id == id) = some note)
    (hinv : noteInv note) :
    ∃ note1 note2,
      (voteNote userId id true ch s).2.1.notes.find? (fun n => n.id == id)
          = some note1
      ∧ (voteNote userId id true ch
          (voteNote userId id true ch s).2.1).2.1.notes.find? (fun n => n.id == id)
          = some note2
      ∧ (userId ∈ note.voted_by →
          ∀ x, x ∈ note1.voted_by ↔ (x ∈ note.voted_by ∧ x ≠ userId))
      ∧ (userId ∉ note.voted_by →
          ∀ x, x ∈ note1.voted_by ↔ (x ∈ note.voted_by ∨ x = userId))
      ∧ (∀ x, x ∈ note2.voted_by ↔ x ∈ note.voted_by)
      ∧ note2.votes = note.votes := by
  have hid : (note.id == id) = true :=
    List.find?_some (p := fun n : StickyNote => n.id == id) hfind
  set u1 : StickyNote := dbApplyVotedBy note (toggleVotedBy note.voted_by userId)
    with hu1
  have hid1 : (u1.id == id) = true := hid
  set u2 : StickyNote := dbApplyVotedBy u1 (toggleVotedBy u1.voted_by userId)
    with hu2
  have hid2 : (u2.id == id) = true := hid
  refine ⟨u1, u2, ?_, ?_, ?_, ?_, ?_, ?_⟩
  · rw [voteNote_found userId id ch s note hfind]
    exact find?_map_replace s.notes id u1 note hfind hid1
  · have hfind1 : (voteNote userId id true ch s).2.1.notes.find?
        (fun n => n.id == id) = some u1 := by
      rw [voteNote_found userId id ch s note hfind]
      exact find?_map_replace s.notes id u1 note hfind hid1
    rw [voteNote_found userId id ch _ u1 hfind1]
    exact find?_map_replace _ id u2 u1 hfind1 hid2
  · intro hm
    exact mem_toggleVotedBy_of_mem note.voted_by userId hm
  · intro hm
    exact mem_toggleVotedBy_of_not_mem note.voted_by userId hm
  · exact toggle_toggle_mem note.voted_by userId
  · show (toggleVotedBy (toggleVotedBy note.voted_by userId) userId).length
        = note.votes
    rw [toggle_toggle_length note.voted_by userId hinv.2, hinv.1]

/-- C2 witness: on the scenario note (empty `voted_by`), user `u2` voting
twice first adds and then removes the vote, returning membership and count to
the original. -/
theorem vote_toggle_involution_witness :
    sampleState.notes.find? (fun n => n.id == "n1") = some sampleNote
    ∧ noteInv sampleNote
    ∧ ∃ note1 note2,
        (voteNote "u2" "n1" true true sampleState).2.1.notes.find?
            (fun n => n.id == "n1") = some note1
        ∧ (voteNote "u2" "n1" true true
            (voteNote "u2" "n1" true true sampleState).2.1).2.1.notes.find?
            (fun n => n.id == "n1") = some note2
        ∧ ("u2" ∈ sampleNote.voted_by →
            ∀ x, x ∈ note1.voted_by ↔ (x ∈ sampleNote.voted_by ∧ x ≠ "u2"))
        ∧ ("u2" ∉ sampleNote.voted_by →
            ∀ x, x ∈ note1.voted_by ↔ (x ∈ sampleNote.voted_by ∨ x = "u2"))
        ∧ (∀ x, x ∈ note2.voted_by ↔ x ∈ sampleNote.voted_by)
        ∧ note2.votes = sampleNote.votes :=
  ⟨by decide, by decide,
   vote_toggle_involution "u2" "n1" true sampleState sampleNote (by decide) (by decide)⟩

/-- C7: a successful `load()` replaces the collection wholesale with the
fetched list and clears the error; when the store holds at least 100 notes
the fetched list has exactly 100 entries, ordered newest-first by creation
time. -/
theorem capped_load (store : List StickyNote) (s : EngineState)
    (h : 100 ≤ store.length) :
    (loadSuccess store s).notes = fetchNotes store
    ∧ (loadSuccess store s).notes.length = 100
    ∧ (loadSuccess store s).notes.Pairwise
        (fun a b => b.created_at ≤ a.created_at)
    ∧ (loadSuccess store s).error = none := by
  refine ⟨rfl, ?_, ?_, rfl⟩
  · show (fetchNotes store).length = 100
    unfold fetchNotes
    rw [List.length_take, List.length_mergeSort]
    exact Nat.min_eq_left h
  · show (fetchNotes store).Pairwise _
    unfold fetchNotes
    have hsorted : (store.mergeSort createdAtDesc).Pairwise
        (fun a b => createdAtDesc a b = true) :=
      List.sorted_mergeSort
        (fun a b c hab hbc => by
          simp only [createdAtDesc, decide_eq_true_eq] at hab hbc ⊢
          omega)
        (fun a b => by
          simp only [createdAtDesc, Bool.or_eq_true, decide_eq_true_eq]
          omega)
        store
    have htake := hsorted.sublist (List.take_sublist 100 _)
    exact htake.imp (fun hab => by
      simpa only [createdAtDesc, decide_eq_true_eq] using hab)

/-- C7 witness: loading from a 150-row store yields exactly 100 notes,
newest-first, replacing the collection wholesale. -/
theorem capped_load_witness :
    100 ≤ store150.length
    ∧ ((loadSuccess store150 sampleState).notes = fetchNotes store150
      ∧ (loadSuccess store150 sampleState).notes.length = 100
      ∧ (loadSuccess store150 sampleState).notes.Pairwise
          (fun a b => b.created_at ≤ a.created_at)
      ∧ (loadSuccess store150 sampleState).error = none) :=
  ⟨by simp [store150], capped_load store150 sampleState (by simp [store150])⟩

/-- C8: with no active session `addNote` resolves to a failure value (never
an uncaught fault), records an auth error, issues no persistence write, emits
no broadcast and leaves the collection unchanged; with a session, the row
returned by the persistence call is prepended to the collection and a
`note_added` broadcast follows; on persistence failure the collection is also
left unchanged with the error recorded. -/
theorem addNote_auth_precondition (userId userName content category color : String)
    (px py : Int) (newId : String) (now : Nat) (s : EngineState)
    (hU : userId ≠ "") (hN : userName ≠ "") :
    (∀ storeOk ch, addNote false userId userName content category color px py
        newId now storeOk ch s
      = (none,
         { s with error := some "No active session. Please sign in again." },
         [], []))
    ∧ addNote true userId userName content category color px py newId now true true s
      = (some (serverRow userId userName content category color px py newId now),
         { s with notes :=
             serverRow userId userName content category color px py newId now :: s.notes },
         [.note_added (serverRow userId userName content category color px py newId now)],
         [.insertNote content category color px py userId userName])
    ∧ addNote true userId userName content category color px py newId now false true s
      = (none, { s with error := some "Failed to add note" },
         [], [.insertNote content category color px py userId userName]) := by
  have hU' : (userId == "") = false := by
    simp only [beq_eq_false_iff_ne, ne_eq]
    exact hU
  have hN' : (userName == "") = false := by
    simp only [beq_eq_false_iff_ne, ne_eq]
    exact hN
  refine ⟨fun storeOk ch => by simp [addNote], ?_, ?_⟩
  · simp [addNote, hU', hN']
  · simp [addNote, hU', hN']

/-- C8 witness: at the scenario state, `addNote` without a session fails fast
and silently; with one, the confirmed row lands at the front and is
broadcast. -/
theorem addNote_auth_precondition_witness :
    ("u1" : String) ≠ ""
    ∧ ("Ann" : String) ≠ ""
    ∧ ((∀ storeOk ch, addNote false "u1" "Ann" "Build a bot" "automation" "#d1fae5"
          250 140 "n2" 2 storeOk ch sampleState
        = (none,
           { sampleState with error := some "No active session. Please sign in again." },
           [], []))
      ∧ addNote true "u1" "Ann" "Build a bot" "automation" "#d1fae5" 250 140 "n2" 2
          true true sampleState
        = (some (serverRow "u1" "Ann" "Build a bot" "automation" "#d1fae5" 250 140 "n2" 2),
           { sampleState with notes :=
               (serverRow "u1" "Ann" "Build a bot" "automation" "#d1fae5" 250 140 "n2" 2
                 :: sampleState.notes) },
           [.note_added (serverRow "u1" "Ann" "Build a bot" "automation" "#d1fae5" 250 140 "n2" 2)],
           [.insertNote "Build a bot" "automation" "#d1fae5" 250 140 "u1" "Ann"])
      ∧ addNote true "u1" "Ann" "Build a bot" "automation" "#d1fae5" 250 140 "n2" 2
          false true sampleState
        = (none, { sampleState with error := some "Failed to add note" },
           [], [.insertNote "Build a bot" "automation" "#d1fae5" 250 140 "u1" "Ann"])) :=
  ⟨by decide, by decide,
   addNote_auth_precondition "u1" "Ann" "Build a bot" "automation" "#d1fae5"
     250 140 "n2" 2 sampleState (by decide) (by decide)⟩

theorem find?_eq_head?_filter {α : Type} (p : α → Bool) (l : List α) :
    l.find? p = (l.filter p).head? := by
  induction l with
  | nil => rfl
  | cons a l ih =>
    by_cases ha : p a = true
    · rw [List.find?_cons_of_pos _ ha, List.filter_cons_of_pos ha, List.head?_cons]
    · rw [List.find?_cons_of_neg _ ha, List.filter_cons_of_neg ha]
      exact ih

theorem find?_map_set_of_any (m : List (String × PresenceUser)) (k : String)
    (v : PresenceUser) (hc : m.any (fun q => q.1 == k) = true) :
    (m.map (fun q => if q.1 == k then (k, v) else q)).find? (fun q => q.1 == k)
      = some (k, v) := by
  induction m with
  | nil => simp at hc
  | cons a m ih =>
    by_cases hak : (a.1 == k) = true
    · rw [List.map_cons, if_pos hak]
      exact List.find?_cons_of_pos (p := fun q : String × PresenceUser => q.1 == k)
        _ (beq_self_eq_true k)
    · rw [List.map_cons, if_neg hak,
          List.find?_cons_of_neg (p := fun q : String × PresenceUser => q.1 == k) _ hak]
      apply ih
      rw [List.any_cons] at hc
      simpa [hak] using hc

theorem find?_map_set_ne (m : List (String × PresenceUser)) (k : String)
    (v : PresenceUser) (uid : String) (hne : uid ≠ k) :
    (m.map (fun q => if q.1 == k then (k, v) else q)).find? (fun q => q.1 == uid)
      = m.find? (fun q => q.1 == uid) := by
  induction m with
  | nil => rfl
  | cons a m ih =>
    rw [List.map_cons]
    by_cases hau : (a.1 == uid) = true
    · have hak : ¬ (a.1 == k) = true := by
        simp only [beq_iff_eq] at hau ⊢
        rw [hau]
        exact hne
      rw [if_neg hak,
          List.find?_cons_of_pos (p := fun q : String × PresenceUser => q.1 == uid) _ hau,
          List.find?_cons_of_pos (p := fun q : String × PresenceUser => q.1 == uid) _ hau]
    · by_cases hak : (a.1 == k) = true
      · rw [if_pos hak]
        have hkv : ¬ (((k, v) : String × PresenceUser).1 == uid) = true := by
          simp only [beq_iff_eq]
          exact fun h => hne h.symm
        rw [List.find?_cons_of_neg (p := fun q : String × PresenceUser => q.1 == uid) _ hkv,
            List.find?_cons_of_neg (p := fun q : String × PresenceUser => q.1 == uid) _ hau]
        exact ih
      · rw [if_neg hak,
            List.find?_cons_of_neg (p := fun q : String × PresenceUser => q.1 == uid) _ hau,
            List.find?_cons_of_neg (p := fun q : String × PresenceUser => q.1 == uid) _ hau]
        exact ih

theorem find?_mapSet (m : List (String × PresenceUser)) (k : String)
    (v : PresenceUser) :
    (mapSet m k v).find? (fun q => q.1 == k) = some (k, v) := by
  unfold mapSet
  by_cases hc : m.any (fun q => q.1 == k) = true
  · rw [if_pos hc]
    exact find?_map_set_of_any m k v hc
  · rw [if_neg hc, List.find?_append]
    have hnone : m.find? (fun q => q.1 == k) = none := by
      rw [List.find?_eq_none]
      intro q hq hq'
      exact hc (List.any_eq_true.mpr ⟨q, hq, hq'⟩)
    rw [hnone]
    simp

theorem find?_mapSet_ne (m : List (String × PresenceUser)) (k : String)
    (v : PresenceUser) (uid : String) (hne : uid ≠ k) :
    (mapSet m k v).find? (fun q => q.1 == uid) = m.find? (fun q => q.1 == uid) := by
  unfold mapSet
  by_cases hc : m.any (fun q => q.1 == k) = true
  · rw [if_pos hc]
    exact find?_map_set_ne m k v uid hne
  · rw [if_neg hc, List.find?_append]
    have hkv : ([((k, v) : String × PresenceUser)].find? (fun q => q.1 == uid)) = none := by
      rw [List.find?_eq_none]
      intro q hq hq'
      rw [List.mem_singleton] at hq
      subst hq
      exact hne (beq_iff_eq.mp hq').symm
    rw [hkv]
    cases m.find? (fun q => q.1 == uid) <;> rfl

theorem foldl_guard_filter (localId : String) (l : List PresenceUser)
    (m : List (String × PresenceUser)) :
    l.foldl (fun m p => if p.user_id != localId then mapSet m p.user_id p else m) m
      = (l.filter (fun p => p.user_id != localId)).foldl
          (fun m p => mapSet m p.user_id p) m := by
  induction l generalizing m with
  | nil => rfl
  | cons a l ih =>
    by_cases ha : (a.user_id != localId) = true
    · rw [List.foldl_cons, if_pos ha,
          List.filter_cons_of_pos (p := fun p : PresenceUser => p.user_id != localId) ha,
          List.foldl_cons]
      exact ih _
    · rw [List.foldl_cons, if_neg ha,
          List.filter_cons_of_neg (p := fun p : PresenceUser => p.user_id != localId) ha]
      exact ih m

theorem find?_foldl_mapSet (l : List PresenceUser)
    (m : List (String × PresenceUser)) (uid : String) :
    (l.foldl (fun m p => mapSet m p.user_id p) m).find? (fun q => q.1 == uid)
      = match (l.filter (fun p => p.user_id == uid)).getLast? with
        | some p => some (uid, p)
        | none => m.find? (fun q => q.1 == uid) := by
  induction l generalizing m with
  | nil => rfl
  | cons a l ih =>
    rw [List.foldl_cons, ih (mapSet m a.user_id a)]
    by_cases hau : (a.user_id == uid) = true
    · rw [List.filter_cons_of_pos (p := fun p : PresenceUser => p.user_id == uid) hau]
      cases hl : (l.filter (fun p => p.user_id == uid)).getLast? with
      | some p =>
        rw [List.getLast?_cons, hl]
        rfl
      | none =>
        rw [List.getLast?_cons, hl]
        have ha' : a.user_id = uid := beq_iff_eq.mp hau
        rw [← ha', find?_mapSet]
        simp
    · rw [List.filter_cons_of_neg (p := fun p : PresenceUser => p.user_id == uid) hau]
      cases hl : (l.filter (fun p => p.user_id == uid)).getLast? with
      | some p => rfl
      | none =>
        exact find?_mapSet_ne m a.user_id a uid
          (fun h => hau (beq_iff_eq.mpr h.symm))

theorem mapSet_keys_nodup (m : List (String × PresenceUser)) (k : String)
    (v : PresenceUser) (h : (m.map Prod.fst).Nodup) :
    ((mapSet m k v).map Prod.fst).Nodup := by
  unfold mapSet
  by_cases hc : m.any (fun q => q.1 == k) = true
  · rw [if_pos hc]
    have : (m.map (fun q => if q.1 == k then (k, v) else q)).map Prod.fst
        = m.map Prod.fst := by
      rw [List.map_map]
      apply List.map_congr_left
      intro q hq
      by_cases hqk : (q.1 == k) = true
      · simp only [Function.comp, hqk, if_pos]
        exact (beq_iff_eq.mp hqk).symm
      · simp only [Function.comp, hqk, if_neg, Bool.false_eq_true, if_false]
    rw [this]
    exact h
  · rw [if_neg hc, List.map_append, List.nodup_append]
    refine ⟨h, by simp, ?_⟩
    intro x hx hx'
    simp only [List.map_singleton, List.mem_singleton] at hx'
    subst hx'
    apply hc
    rw [List.any_eq_true]
    obtain ⟨q, hq, hq'⟩ := List.mem_map.mp hx
    exact ⟨q, hq, beq_iff_eq.mpr hq'⟩

theorem mem_mapSet (m : List (String × PresenceUser)) (k : String)
    (v : PresenceUser) (q : String × PresenceUser) (hq : q ∈ mapSet m k v) :
    q = (k, v) ∨ q ∈ m := by
  unfold mapSet at hq
  by_cases hc : m.any (fun q => q.1 == k) = true
  · rw [if_pos hc] at hq
    obtain ⟨a, ha, hEq⟩ := List.mem_map.mp hq
    by_cases hak : (a.1 == k) = true
    · rw [if_pos hak] at hEq
      exact Or.inl hEq.symm
    · rw [if_neg hak] at hEq
      exact Or.inr (hEq ▸ ha)
  · rw [if_neg hc] at hq
    rcases List.mem_append.mp hq with h1 | h2
    · exact Or.inr h1
    · rw [List.mem_singleton] at h2
      exact Or.inl h2

theorem foldl_mapSet_invariant (P : String × PresenceUser → Prop)
    (l : List PresenceUser) (m : List (String × PresenceUser))
    (hl : ∀ p ∈ l, P (p.user_id, p)) (hm : ∀ q ∈ m, P q) :
    ∀ q ∈ l.foldl (fun m p => mapSet m p.user_id p) m, P q := by
  induction l generalizing m with
  | nil => exact hm
  | cons a l ih =>
    rw [List.foldl_cons]
    apply ih
    · intro p hp
      exact hl p (List.mem_cons_of_mem a hp)
    · intro q hq
      rcases mem_mapSet m a.user_id a q hq with rfl | hq'
      · exact hl a (List.mem_cons_self a l)
      · exact hm q hq'

theorem foldl_mapSet_keys_nodup (l : List PresenceUser)
    (m : List (String × PresenceUser)) (hm : (m.map Prod.fst).Nodup) :
    ((l.foldl (fun m p => mapSet m p.user_id p) m).map Prod.fst).Nodup := by
  induction l generalizing m with
  | nil => exact hm
  | cons a l ih =>
    rw [List.foldl_cons]
    exact ih _ (mapSet_keys_nodup m a.user_id a hm)

/-- C9 counterexample: a snapshot whose single key lists two entries for user
`u2` — the first with heartbeat 10, the second with heartbeat 5.  The sync
handler keeps the later-listed, *staler* entry (`online_at = 5`), although
the snapshot contains one for the same id with the more recent
`online_at = 10`: the claim's "most recent online_at wins" fails. -/
theorem presence_sync_most_recent_counterexample :
    presenceSync "me" [("k", [presenceLate, presenceStale])] = [presenceStale]
    ∧ presenceLate ∈ (([("k", [presenceLate, presenceStale])].map
        (fun kv => kv.2)).flatten)
    ∧ presenceLate.user_id = presenceStale.user_id
    ∧ presenceStale.online_at < presenceLate.online_at := by decide

/-- C9 (amended): on a sync snapshot the handler rebuilds the active-user set
from the snapshot alone, excluding every entry with the local user's id and
deduplicating by `user_id` — but the kept entry for each id is the
*last-encountered one in snapshot iteration order*, not the one with the most
recent `online_at`: for every id, the unique retained entry equals the last
entry for that id among the flattened, non-local snapshot entries. -/
theorem presence_sync_dedup_last_encountered (localId : String)
    (snapshot : List (String × List PresenceUser)) :
    ((presenceSync localId snapshot).map (fun p => p.user_id)).Nodup
    ∧ (∀ p ∈ presenceSync localId snapshot, p.user_id ≠ localId)
    ∧ (∀ uid : String,
        ((presenceSync localId snapshot).filter (fun p => p.user_id == uid)).head?
          = ((((snapshot.map (fun kv => kv.2)).flatten).filter
              (fun p => p.user_id != localId)).filter
              (fun p => p.user_id == uid)).getLast?) := by
  have hkeyed : ∀ q ∈ (((snapshot.map (fun kv => kv.2)).flatten).filter
      (fun p => p.user_id != localId)).foldl (fun m p => mapSet m p.user_id p) [],
      q.2.user_id = q.1 ∧ q.2.user_id ≠ localId := by
    apply foldl_mapSet_invariant
      (fun q => q.2.user_id = q.1 ∧ q.2.user_id ≠ localId)
    · intro p hp
      refine ⟨rfl, ?_⟩
      have := (List.mem_filter.mp hp).2
      simpa [bne_iff_ne] using this
    · intro q hq
      cases hq
  have hsync : presenceSync localId snapshot
      = ((((snapshot.map (fun kv => kv.2)).flatten).filter
          (fun p => p.user_id != localId)).foldl
          (fun m p => mapSet m p.user_id p) []).map (fun q => q.2) := by
    unfold presenceSync
    rw [foldl_guard_filter]
  refine ⟨?_, ?_, ?_⟩
  · rw [hsync, List.map_map]
    have : (((((snapshot.map (fun kv => kv.2)).flatten).filter
        (fun p => p.user_id != localId)).foldl
        (fun m p => mapSet m p.user_id p) []).map
          ((fun p => p.user_id) ∘ (fun q => q.2)))
        = ((((snapshot.map (fun kv => kv.2)).flatten).filter
            (fun p => p.user_id != localId)).foldl
            (fun m p => mapSet m p.user_id p) []).map Prod.fst := by
      apply List.map_congr_left
      intro q hq
      exact (hkeyed q hq).1
    rw [this]
    exact foldl_mapSet_keys_nodup _ [] (by simp)
  · intro p hp
    rw [hsync] at hp
    obtain ⟨q, hq, hEq⟩ := List.mem_map.mp hp
    exact hEq ▸ (hkeyed q hq).2
  · intro uid
    rw [hsync, List.filter_map]
    have hfc : (((((snapshot.map (fun kv => kv.2)).flatten).filter
        (fun p => p.user_id != localId)).foldl
        (fun m p => mapSet m p.user_id p) []).filter
          ((fun p => p.user_id == uid) ∘ (fun q => q.2)))
        = ((((snapshot.map (fun kv => kv.2)).flatten).filter
            (fun p => p.user_id != localId)).foldl
            (fun m p => mapSet m p.user_id p) []).filter
            (fun q => q.1 == uid) := by
      apply List.filter_congr
      intro q hq
      simp only [Function.comp]
      rw [(hkeyed q hq).1]
    rw [hfc, List.head?_map, ← find?_eq_head?_filter, find?_foldl_mapSet]
    cases hl : ((((snapshot.map (fun kv => kv.2)).flatten).filter
        (fun p => p.user_id != localId)).filter
        (fun p => p.user_id == uid)).getLast? with
    | some p => rfl
    | none => rfl

/-- C9 amended-claim witness: the amended dedup law evaluated on the
two-entry conflict snapshot. -/
theorem presence_sync_dedup_last_encountered_witness :
    ((presenceSync "me" [("k", [presenceLate, presenceStale])]).map
        (fun p => p.user_id)).Nodup
    ∧ (∀ p ∈ presenceSync "me" [("k", [presenceLate, presenceStale])],
        p.user_id ≠ "me")
    ∧ (∀ uid : String,
        ((presenceSync "me" [("k", [presenceLate, presenceStale])]).filter
            (fun p => p.user_id == uid)).head?
          = (((([("k", [presenceLate, presenceStale])].map
              (fun kv => kv.2)).flatten).filter
              (fun p => p.user_id != "me")).filter
              (fun p => p.user_id == uid)).getLast?) :=
  presence_sync_dedup_last_encountered "me" [("k", [presenceLate, presenceStale])]

end IdeaBoard
